import Mathlib

/-!
Shallow embedding of `PublishableApiKeyService` (src/unnamed/part_000), a
CRUD-style service managing publishable API key records against a record store
and announcing lifecycle transitions on an event bus.

The service's repository (`PublishableApiKeyRepository`) and entity model are
not part of the excerpt, so the store is modelled from the spec as a list of
records: `findOne` is find-by-id, `save` is an upsert (replace the record with
the same id, or append), and the id of a newly created record is assigned at
creation and passed in explicitly (spec: "id: unique identifier, assigned at
creation").

State is a `ServiceState`: the store plus the ordered list of emitted events.
Fallible operations return `Except MedusaError`.  `new Date()` in `revoke` is
modelled as an explicit `now : Nat` argument.
-/

namespace PublishableApiKeyService

/-- The PublishableApiKey record: `revoked_at` is a nullable timestamp
(null means active), `revoked_by` a nullable principal id. -/
structure PublishableApiKey where
  id : String
  created_by : String
  revoked_at : Option Nat
  revoked_by : Option String
deriving Repr, DecidableEq

/-- MedusaError.Types used by this service. -/
inductive MedusaErrorType where
  | NOT_FOUND
  | NOT_ALLOWED
deriving Repr, DecidableEq

/-- A MedusaError: an error type together with its message. -/
structure MedusaError where
  type : MedusaErrorType
  message : String
deriving Repr, DecidableEq

/-- Service state: the persistent store and the events emitted so far
(event name paired with the payload's id field). -/
structure ServiceState where
  store : List PublishableApiKey
  events : List (String × String)
deriving Repr, DecidableEq

/-- PublishableApiKeyService.Events.CREATED. -/
def Events.CREATED : String := "publishable_api_key.created"

/-- PublishableApiKeyService.Events.REVOKED. -/
def Events.REVOKED : String := "publishable_api_key.revoked"

/-- Modelled from the spec: the repository's find-by-id
(`findOneWithRelations` with an id selector) returns the first record whose
id matches, or none. -/
def findOne : List PublishableApiKey → String → Option PublishableApiKey
  | [], _ => none
  | r :: rest, i => if r.id = i then some r else findOne rest i

/-- Modelled from the spec: the repository's `save` persists a record,
replacing the stored record with the same id (or appending if absent). -/
def save : List PublishableApiKey → PublishableApiKey → List PublishableApiKey
  | [], k => [k]
  | r :: rest, k => if r.id = k.id then k :: rest else r :: save rest k

/-- Pagination part of a FindConfig: `skip` (offset) and `take` (page size). -/
structure FindConfig where
  skip : Nat
  take : Nat
deriving Repr, DecidableEq

/-- The default FindConfig of `listAndCount`: `{ skip: 0, take: 20 }`. -/
def defaultFindConfig : FindConfig := { skip := 0, take := 20 }

/-- `create(context)`: instantiate a record with
`created_by = context.loggedInUserId` (the fresh id is assigned at creation
by the repository and passed in as `newId`, modelled from the spec), emit the
`publishable_api_key.created` event carrying the record's id, save the record,
and return it — all in one atomic phase. -/
def create (s : ServiceState) (newId : String) (loggedInUserId : String) :
    PublishableApiKey × ServiceState :=
  let publishableApiKey : PublishableApiKey :=
    { id := newId
      created_by := loggedInUserId
      revoked_at := none
      revoked_by := none }
  ( publishableApiKey,
    { store := save s.store publishableApiKey
      events := s.events ++ [(Events.CREATED, publishableApiKey.id)] } )

/-- `retrieve(publishableApiKeyId)`: return the stored record with that id, or
fail with a NOT_FOUND MedusaError. -/
def retrieve (s : ServiceState) (publishableApiKeyId : String) :
    Except MedusaError PublishableApiKey :=
  match findOne s.store publishableApiKeyId with
  | some publishableApiKey => Except.ok publishableApiKey
  | none =>
      Except.error
        { type := MedusaErrorType.NOT_FOUND
          message := "PublishableApiKey was not found" }

/-- `listAndCount(selector, config)`: the page of matching records described
by the config (offset `skip`, page size `take`) together with the total count
of records matching the selector. -/
def listAndCount (s : ServiceState) (selector : PublishableApiKey → Bool)
    (config : FindConfig) : List PublishableApiKey × Nat :=
  let matched := s.store.filter selector
  ((matched.drop config.skip).take config.take, matched.length)

/-- `revoke(publishableApiKeyId, context)`: retrieve the record; fail with a
NOT_ALLOWED MedusaError if `revoked_at` is already non-null; otherwise set
`revoked_at = now` and `revoked_by = context.loggedInUserId`, save, and emit
the `publishable_api_key.revoked` event carrying the record's id — all in one
atomic phase. -/
def revoke (s : ServiceState) (publishableApiKeyId : String)
    (loggedInUserId : String) (now : Nat) : Except MedusaError ServiceState :=
  match retrieve s publishableApiKeyId with
  | Except.error e => Except.error e
  | Except.ok pubKey =>
      if pubKey.revoked_at.isSome then
        Except.error
          { type := MedusaErrorType.NOT_ALLOWED
            message := "PublishableApiKey has already been revoked." }
      else
        let pubKey' : PublishableApiKey :=
          { pubKey with revoked_at := some now, revoked_by := some loggedInUserId }
        Except.ok
          { store := save s.store pubKey'
            events := s.events ++ [(Events.REVOKED, pubKey'.id)] }

/-- `isValid(publishableApiKeyId)`: retrieve the record and return whether
`revoked_by` is null (the implemented check inspects `revoked_by`). -/
def isValid (s : ServiceState) (publishableApiKeyId : String) :
    Except MedusaError Bool :=
  match retrieve s publishableApiKeyId with
  | Except.ok pubKey => Except.ok pubKey.revoked_by.isNone
  | Except.error e => Except.error e

/-- The intended validity check written from the spec's words: a record is
active exactly when `revoked_at` is null.  Used only to compare against the
implemented `isValid`. -/
def isValidIntended (s : ServiceState) (publishableApiKeyId : String) :
    Except MedusaError Bool :=
  match retrieve s publishableApiKeyId with
  | Except.ok pubKey => Except.ok pubKey.revoked_at.isNone
  | Except.error e => Except.error e

/-- One operation of the service, for stating state-evolution invariants. -/
inductive Op where
  | createOp (newId : String) (loggedInUserId : String)
  | retrieveOp (publishableApiKeyId : String)
  | listAndCountOp (selector : PublishableApiKey → Bool) (config : FindConfig)
  | revokeOp (publishableApiKeyId : String) (loggedInUserId : String) (now : Nat)
  | isValidOp (publishableApiKeyId : String)

/-- The state after running one operation: `retrieve`, `listAndCount` and
`isValid` are reads and leave the state unchanged; a failing `revoke` leaves
the state unchanged (the atomic phase rolls back). -/
def step (s : ServiceState) : Op → ServiceState
  | Op.createOp newId uid => (create s newId uid).2
  | Op.retrieveOp _ => s
  | Op.listAndCountOp _ _ => s
  | Op.revokeOp i uid now =>
      match revoke s i uid now with
      | Except.ok s' => s'
      | Except.error _ => s
  | Op.isValidOp _ => s

/-- States reachable through the service's own operations, starting from the
empty store. -/
inductive Reachable : ServiceState → Prop
  | init : Reachable { store := [], events := [] }
  | next {s : ServiceState} (op : Op) : Reachable s → Reachable (step s op)

/-- Consistency between the two revocation fields: `revoked_at` is null
exactly when `revoked_by` is null, for every stored record. -/
def StoreConsistent (s : ServiceState) : Prop :=
  ∀ k ∈ s.store, (k.revoked_at = none ↔ k.revoked_by = none)

/-- A concrete active record, for evaluating the theorems. -/
def kActive : PublishableApiKey :=
  { id := "k1", created_by := "u1", revoked_at := none, revoked_by := none }

/-- A concrete already-revoked record, for evaluating the theorems. -/
def kRevoked : PublishableApiKey :=
  { id := "k9", created_by := "u1", revoked_at := some 3, revoked_by := some "u2" }

/-- A concrete service state holding one active and one revoked record. -/
def sDemo : ServiceState := { store := [kActive, kRevoked], events := [] }

/-- A concrete state reachable by running `create` then `revoke` from the
empty store. -/
def sReach : ServiceState :=
  step (step { store := [], events := [] } (Op.createOp "k1" "u1"))
    (Op.revokeOp "k1" "u2" 5)

theorem findOne_some_id {st : List PublishableApiKey} {i : String}
    {k : PublishableApiKey} (h : findOne st i = some k) : k.id = i := by
  induction st with
  | nil => simp [findOne] at h
  | cons r rest ih =>
      by_cases hc : r.id = i
      · simp [findOne, hc] at h
        subst h
        exact hc
      · simp [findOne, hc] at h
        exact ih h

theorem findOne_save_self (st : List PublishableApiKey)
    (k : PublishableApiKey) : findOne (save st k) k.id = some k := by
  induction st with
  | nil => simp [save, findOne]
  | cons r rest ih =>
      by_cases hc : r.id = k.id
      · simp [save, hc, findOne]
      · simp [save, hc, findOne, ih]

theorem findOne_append_left {st : List PublishableApiKey} {i : String}
    {k : PublishableApiKey} (l : List PublishableApiKey)
    (h : findOne st i = some k) : findOne (st ++ l) i = some k := by
  induction st with
  | nil => simp [findOne] at h
  | cons r rest ih =>
      by_cases hc : r.id = i
      · simp [findOne, hc] at h ⊢
        exact h
      · simp [findOne, hc] at h ⊢
        exact ih h

theorem save_of_findOne_none {st : List PublishableApiKey}
    {k : PublishableApiKey} (h : findOne st k.id = none) :
    save st k = st ++ [k] := by
  induction st with
  | nil => simp [save]
  | cons r rest ih =>
      by_cases hc : r.id = k.id
      · simp [findOne, hc] at h
      · simp [findOne, hc] at h
        simp [save, hc, ih h]

theorem findOne_save {st : List PublishableApiKey} {i : String}
    {r : PublishableApiKey} (k : PublishableApiKey)
    (h : findOne st i = some r) :
    ∃ r', findOne (save st k) i = some r' ∧ (r' = r ∨ r' = k) := by
  induction st with
  | nil => simp [findOne] at h
  | cons x rest ih =>
      by_cases hck : x.id = k.id
      · by_cases hci : x.id = i
        · have hki : k.id = i := by rw [← hck]; exact hci
          exact ⟨k, by simp [save, hck, findOne, hki], Or.inr rfl⟩
        · have hki : ¬k.id = i := by rw [← hck]; exact hci
          simp [findOne, hci] at h
          exact ⟨r, by simp [save, hck, findOne, hki, h], Or.inl rfl⟩
      · by_cases hci : x.id = i
        · simp [findOne, hci] at h
          have hik : ¬i = k.id := by rw [← hci]; exact hck
          exact ⟨x, by simp [save, hck, hik, findOne, hci], Or.inl (by rw [h])⟩
        · simp [findOne, hci] at h
          obtain ⟨r', hr', hor⟩ := ih h
          exact ⟨r', by simp [save, hck, findOne, hci, hr'], hor⟩

theorem mem_save {st : List PublishableApiKey} {k r : PublishableApiKey}
    (h : r ∈ save st k) : r ∈ st ∨ r = k := by
  induction st with
  | nil =>
      simp [save] at h
      exact Or.inr h
  | cons x rest ih =>
      by_cases hc : x.id = k.id
      · simp [save, hc] at h
        rcases h with h | h
        · exact Or.inr h
        · exact Or.inl (List.mem_cons_of_mem _ h)
      · simp [save, hc] at h
        rcases h with h | h
        · exact Or.inl (by simp [h])
        · rcases ih h with h' | h'
          · exact Or.inl (List.mem_cons_of_mem _ h')
          · exact Or.inr h'

theorem findOne_mem {st : List PublishableApiKey} {i : String}
    {k : PublishableApiKey} (h : findOne st i = some k) : k ∈ st := by
  induction st with
  | nil => simp [findOne] at h
  | cons r rest ih =>
      by_cases hc : r.id = i
      · simp [findOne, hc] at h
        simp [h]
      · simp [findOne, hc] at h
        exact List.mem_cons_of_mem _ (ih h)

theorem revoke_ok_elim {s : ServiceState} {i uid : String} {now : Nat}
    {s' : ServiceState} (h : revoke s i uid now = Except.ok s') :
    ∃ pubKey, findOne s.store i = some pubKey ∧ pubKey.revoked_at = none ∧
      s' = { store := save s.store
                { pubKey with revoked_at := some now, revoked_by := some uid }
             events := s.events ++ [(Events.REVOKED, pubKey.id)] } := by
  cases hf : findOne s.store i with
  | none => simp [revoke, retrieve, hf] at h
  | some pk =>
      by_cases hr : pk.revoked_at.isSome
      · simp [revoke, retrieve, hf, hr] at h
      · refine ⟨pk, rfl, Option.not_isSome_iff_eq_none.mp hr, ?_⟩
        simp [revoke, retrieve, hf, hr] at h
        exact h.symm

/-- C1: revoking a record whose `revoked_at` is null succeeds: the persisted
record has `revoked_at = some now` (a non-null timestamp) and
`revoked_by = revokerId`, and a `publishable_api_key.revoked` event carrying
the record's id is appended to the emitted events. -/
theorem revoke_active_succeeds (s : ServiceState) (i revokerId : String)
    (now : Nat) (k : PublishableApiKey)
    (hk : findOne s.store i = some k) (hactive : k.revoked_at = none) :
    ∃ s', revoke s i revokerId now = Except.ok s' ∧
      findOne s'.store i =
        some { k with revoked_at := some now, revoked_by := some revokerId } ∧
      s'.events = s.events ++ [(Events.REVOKED, k.id)] := by
  have hid : k.id = i := findOne_some_id hk
  refine ⟨{ store := save s.store
              { k with revoked_at := some now, revoked_by := some revokerId }
            events := s.events ++ [(Events.REVOKED, k.id)] }, ?_, ?_, rfl⟩
  · simp [revoke, retrieve, hk, hactive]
  · subst hid
    exact findOne_save_self s.store _

theorem revoke_active_succeeds_witness :
    ∃ s', revoke sDemo "k1" "u2" 7 = Except.ok s' ∧
      findOne s'.store "k1" =
        some { kActive with revoked_at := some 7, revoked_by := some "u2" } ∧
      s'.events = sDemo.events ++ [(Events.REVOKED, kActive.id)] :=
  revoke_active_succeeds sDemo "k1" "u2" 7 kActive (by decide) (by decide)

/-- C2: revoking an already-revoked record fails with a NOT_ALLOWED
MedusaError, and the state (store and emitted events) is left unchanged. -/
theorem revoke_revoked_fails (s : ServiceState) (i revokerId : String)
    (now : Nat) (k : PublishableApiKey)
    (hk : findOne s.store i = some k) (hrev : k.revoked_at ≠ none) :
    revoke s i revokerId now =
      Except.error
        { type := MedusaErrorType.NOT_ALLOWED
          message := "PublishableApiKey has already been revoked." } ∧
    step s (Op.revokeOp i revokerId now) = s := by
  have hs : k.revoked_at.isSome = true := Option.isSome_iff_ne_none.mpr hrev
  constructor
  · simp [revoke, retrieve, hk, hs]
  · simp [step, revoke, retrieve, hk, hs]

theorem revoke_revoked_fails_witness :
    revoke sDemo "k9" "u3" 8 =
      Except.error
        { type := MedusaErrorType.NOT_ALLOWED
          message := "PublishableApiKey has already been revoked." } ∧
    step sDemo (Op.revokeOp "k9" "u3" 8) = sDemo :=
  revoke_revoked_fails sDemo "k9" "u3" 8 kRevoked (by decide) (by decide)

/-- C3: `revoked_at` is monotone: a stored record whose `revoked_at` is
non-null before any service operation (`create` with a fresh repository-assigned
id, `retrieve`, `listAndCount`, `revoke`, `isValid`) still has a non-null
`revoked_at` after the operation. -/
theorem revoked_at_monotonic (s : ServiceState) (op : Op) (i : String)
    (k : PublishableApiKey) (hk : findOne s.store i = some k)
    (hrev : k.revoked_at.isSome = true)
    (hfresh : ∀ newId uid, op = Op.createOp newId uid →
      findOne s.store newId = none) :
    ∃ k', findOne (step s op).store i = some k' ∧ k'.revoked_at.isSome = true := by
  cases op with
  | createOp newId uid =>
      have hn : findOne s.store newId = none := hfresh newId uid rfl
      refine ⟨k, ?_, hrev⟩
      show findOne (save s.store _) i = some k
      rw [save_of_findOne_none hn]
      exact findOne_append_left _ hk
  | retrieveOp j => exact ⟨k, hk, hrev⟩
  | listAndCountOp sel cfg => exact ⟨k, hk, hrev⟩
  | isValidOp j => exact ⟨k, hk, hrev⟩
  | revokeOp j uid now =>
      cases hrv : revoke s j uid now with
      | error e =>
          refine ⟨k, ?_, hrev⟩
          simpa [step, hrv] using hk
      | ok s' =>
          obtain ⟨pk, hpk, hact, hs'⟩ := revoke_ok_elim hrv
          have hstep : step s (Op.revokeOp j uid now) = s' := by
            simp [step, hrv]
          rw [hstep, hs']
          obtain ⟨r', hr', hor⟩ :=
            findOne_save
              { pk with revoked_at := some now, revoked_by := some uid } hk
          refine ⟨r', hr', ?_⟩
          rcases hor with h | h
          · rw [h]; exact hrev
          · rw [h]; rfl

theorem revoked_at_monotonic_witness :
    ∃ k', findOne (step sDemo (Op.createOp "k2" "u5")).store "k9" = some k' ∧
      k'.revoked_at.isSome = true :=
  revoked_at_monotonic sDemo (Op.createOp "k2" "u5") "k9" kRevoked (by decide)
    (by decide)
    (fun newId uid h => by
      injection h with h1 h2
      subst h1
      decide)

theorem retrieve_create (s : ServiceState) (newId uid : String) :
    retrieve (create s newId uid).2 newId = Except.ok (create s newId uid).1 := by
  have h := findOne_save_self s.store
    { id := newId, created_by := uid, revoked_at := none, revoked_by := none }
  simp only [create, retrieve]
  rw [h]

/-- C4: `create` emits a `publishable_api_key.created` event in the same
atomic phase as the persist, its payload carries the id of the newly
persisted record, and the record is retrievable under that id afterwards. -/
theorem create_emits_created (s : ServiceState) (newId uid : String) :
    (create s newId uid).1.id = newId ∧
    (create s newId uid).2.events = s.events ++ [(Events.CREATED, newId)] ∧
    retrieve (create s newId uid).2 newId = Except.ok (create s newId uid).1 :=
  ⟨rfl, rfl, retrieve_create s newId uid⟩

/-- C5: for an existing record, `isValid` returns exactly whether the
record's `revoked_by` field is null — the implemented check inspects
`revoked_by`, not `revoked_at`. -/
theorem isValid_inspects_revoked_by (s : ServiceState) (i : String)
    (k : PublishableApiKey) (hk : findOne s.store i = some k) :
    isValid s i = Except.ok k.revoked_by.isNone ∧
    (isValid s i = Except.ok true ↔ k.revoked_by = none) := by
  have h1 : isValid s i = Except.ok k.revoked_by.isNone := by
    simp [isValid, retrieve, hk]
  refine ⟨h1, ?_⟩
  rw [h1]
  simp [Option.isNone_iff_eq_none]

theorem isValid_inspects_revoked_by_witness :
    isValid sDemo "k1" = Except.ok kActive.revoked_by.isNone ∧
    (isValid sDemo "k1" = Except.ok true ↔ kActive.revoked_by = none) :=
  isValid_inspects_revoked_by sDemo "k1" kActive (by decide)

theorem step_preserves_consistent {s : ServiceState} (op : Op)
    (h : StoreConsistent s) : StoreConsistent (step s op) := by
  cases op with
  | createOp newId uid =>
      intro k hkmem
      simp only [step, create] at hkmem
      rcases mem_save hkmem with hm | hm
      · exact h k hm
      · subst hm
        simp
  | retrieveOp j => exact h
  | listAndCountOp sel cfg => exact h
  | isValidOp j => exact h
  | revokeOp j uid now =>
      cases hrv : revoke s j uid now with
      | error e =>
          intro k hkmem
          rw [show step s (Op.revokeOp j uid now) = s from by simp [step, hrv]]
            at hkmem
          exact h k hkmem
      | ok s' =>
          obtain ⟨pk, hpk, hact, hs'⟩ := revoke_ok_elim hrv
          intro k hkmem
          rw [show step s (Op.revokeOp j uid now) = s' from by simp [step, hrv],
            hs'] at hkmem
          rcases mem_save hkmem with hm | hm
          · exact h k hm
          · subst hm
            simp

theorem reachable_consistent {s : ServiceState} (h : Reachable s) :
    StoreConsistent s := by
  induction h with
  | init =>
      intro k hk
      simp at hk
  | next op _ ih => exact step_preserves_consistent op ih

/-- C6: on every state reachable through this service's own operations
(records created by `create`, mutated only by `revoke`), the implemented check
(`revoked_by = null`) agrees with the intended check (`revoked_at = null`):
`isValid` coincides with `isValidIntended`. -/
theorem isValid_eq_intended (s : ServiceState) (hs : Reachable s)
    (i : String) : isValid s i = isValidIntended s i := by
  cases hf : findOne s.store i with
  | none => simp [isValid, isValidIntended, retrieve, hf]
  | some k =>
      have hiff := reachable_consistent hs k (findOne_mem hf)
      cases hat : k.revoked_at with
      | none =>
          have hby := hiff.mp hat
          simp [isValid, isValidIntended, retrieve, hf, hat, hby]
      | some t =>
          cases hby : k.revoked_by with
          | none =>
              have hc := hiff.mpr hby
              rw [hat] at hc
              exact absurd hc (by simp)
          | some u =>
              simp [isValid, isValidIntended, retrieve, hf, hat, hby]

theorem isValid_eq_intended_witness :
    isValid sReach "k1" = isValidIntended sReach "k1" :=
  isValid_eq_intended sReach
    (Reachable.next (Op.revokeOp "k1" "u2" 5)
      (Reachable.next (Op.createOp "k1" "u1") Reachable.init)) "k1"

/-- C7: `create(creatorId)` returns a persisted record with
`created_by = creatorId` and `revoked_at = null`, and retrieving it by the
returned id immediately afterwards yields a record with `revoked_at = null`. -/
theorem create_returns_active (s : ServiceState) (newId creatorId : String) :
    (create s newId creatorId).1.created_by = creatorId ∧
    (create s newId creatorId).1.revoked_at = none ∧
    ∃ k, retrieve (create s newId creatorId).2 (create s newId creatorId).1.id =
        Except.ok k ∧ k.revoked_at = none :=
  ⟨rfl, rfl, (create s newId creatorId).1, retrieve_create s newId creatorId, rfl⟩

/-- C8: `retrieve(id)` returns the stored record when one with that id exists,
and fails with a NOT_FOUND MedusaError when none does. -/
theorem retrieve_found_or_not_found (s : ServiceState) (i : String) :
    (∀ k, findOne s.store i = some k → retrieve s i = Except.ok k) ∧
    (findOne s.store i = none →
      retrieve s i = Except.error
        { type := MedusaErrorType.NOT_FOUND
          message := "PublishableApiKey was not found" }) := by
  constructor
  · intro k hk
    simp [retrieve, hk]
  · intro h
    simp [retrieve, h]

theorem retrieve_found_or_not_found_witness :
    retrieve sDemo "k1" = Except.ok kActive ∧
    retrieve sDemo "nope" = Except.error
      { type := MedusaErrorType.NOT_FOUND
        message := "PublishableApiKey was not found" } :=
  ⟨(retrieve_found_or_not_found sDemo "k1").1 kActive (by decide),
   (retrieve_found_or_not_found sDemo "nope").2 (by decide)⟩

/-- C9: `listAndCount` with the default find config uses offset 0 and page
size 20, returns at most 20 records, and the returned total matching count is
at least the number of records returned. -/
theorem listAndCount_default_bounds (s : ServiceState)
    (selector : PublishableApiKey → Bool) :
    defaultFindConfig.skip = 0 ∧ defaultFindConfig.take = 20 ∧
    (listAndCount s selector defaultFindConfig).1.length ≤ 20 ∧
    (listAndCount s selector defaultFindConfig).1.length ≤
      (listAndCount s selector defaultFindConfig).2 := by
  refine ⟨rfl, rfl, ?_, ?_⟩
  · simp [listAndCount, defaultFindConfig, List.length_take]
  · simp [listAndCount, defaultFindConfig, List.length_take]

/-- C10: for an id with no record in the store, `isValid` does not return a
Boolean at all: it fails with the same NOT_FOUND MedusaError as `retrieve`,
because it fetches the record through `retrieve` before inspecting it. -/
theorem isValid_missing_fails_not_found (s : ServiceState) (i : String)
    (h : findOne s.store i = none) :
    isValid s i = Except.error
      { type := MedusaErrorType.NOT_FOUND
        message := "PublishableApiKey was not found" } ∧
    retrieve s i = Except.error
      { type := MedusaErrorType.NOT_FOUND
        message := "PublishableApiKey was not found" } ∧
    ∀ b : Bool, isValid s i ≠ Except.ok b := by
  refine ⟨?_, ?_, ?_⟩
  · simp [isValid, retrieve, h]
  · simp [retrieve, h]
  · intro b hb
    rw [show isValid s i = Except.error
      { type := MedusaErrorType.NOT_FOUND
        message := "PublishableApiKey was not found" } from by
          simp [isValid, retrieve, h]] at hb
    simp at hb

theorem isValid_missing_fails_not_found_witness :
    isValid sDemo "nope" = Except.error
      { type := MedusaErrorType.NOT_FOUND
        message := "PublishableApiKey was not found" } ∧
    retrieve sDemo "nope" = Except.error
      { type := MedusaErrorType.NOT_FOUND
        message := "PublishableApiKey was not found" } ∧
    ∀ b : Bool, isValid sDemo "nope" ≠ Except.ok b :=
  isValid_missing_fails_not_found sDemo "nope" (by decide)

end PublishableApiKeyService
